import Mathlib

set_option maxRecDepth 20000
set_option maxHeartbeats 1000000

/-!
Verification of the mutato configuration-resolution pipeline (Renderer,
StructureParser, SchemaGate, Pipeline) and of the configuration and
construct helpers (config.toStringEnvironmentMap, config.getGithubMetaData,
the Container construct).

The pipeline classes (PreProcessor, Converter, Validator, Parser from
src/lib/parser) are not present under src/; only their tests are.  Their
definitions below are therefore modelled from the spec (and, where the spec
and the tests disagree, the tests in src/test/parser.test.ts are taken as
the observable behaviour of the missing code).  Strings are modelled as
lists of characters so that proofs can proceed by structural recursion.
-/

abbrev Chars := List Char

/-- Errors of the template renderer, following the failure taxonomy of the
spec (UndefinedReference, BadBuiltinArgument, BuiltinExecutionFailed,
MalformedExpression). -/
inductive RenderErr where
  | undefinedReference (name : Chars)
  | badBuiltinArgument
  | builtinExecutionFailed
  | malformedExpression
  deriving DecidableEq

/-- Argument of a builtin call inside an interpolation expression: either a
string literal or some other raw text. -/
inductive Arg where
  | strLit (s : Chars)
  | raw (s : Chars)
  deriving DecidableEq

/-- Interpolation expression: a context variable reference or a builtin
call such as env or cmd. -/
inductive Expr where
  | var (name : Chars)
  | call (fn : Chars) (args : List Arg)
  deriving DecidableEq

/-- One segment of a scanned template: literal text or an expression. -/
inductive Seg where
  | lit (s : Chars)
  | expr (e : Expr)
  deriving DecidableEq

/-- Boolean equality on character lists, kept as a separate recursive
function so that it reduces definitionally on concrete heads. -/
def strEq : Chars → Chars → Bool
  | [], [] => true
  | a :: as, b :: bs => a == b && strEq as bs
  | _, _ => false

/-- Drop leading spaces. -/
def trimL : Chars → Chars
  | [] => []
  | c :: r => if c = ' ' then trimL r else c :: r

/-- Drop trailing whitespace (spaces, tabs and newlines), as the renderer
does on captured command output. -/
def trimREnd : Chars → Chars
  | [] => []
  | c :: r => if c = ' ' ∨ c = '\n' ∨ c = '\t' then trimREnd r else c :: r

/-- Trim trailing whitespace of a string. -/
def trimR (s : Chars) : Chars := (trimREnd s.reverse).reverse

/-- Trim whitespace on both ends. -/
def trimBoth (s : Chars) : Chars := trimL (trimR s)

/-- Characters allowed in an identifier of the template language. -/
def isIdentChar (c : Char) : Bool := c.isAlphanum || c = '_'

/-- Split the longest identifier prefix off a character list. -/
def takeIdent : Chars → Chars × Chars
  | [] => ([], [])
  | c :: r =>
    if isIdentChar c then
      let p := takeIdent r
      (c :: p.1, p.2)
    else ([], c :: r)

/-- Split on commas (top level, no nesting awareness). -/
def splitCommaAux : Chars → Chars → List Chars
  | [], acc => [acc.reverse]
  | c :: r, acc => if c = ',' then acc.reverse :: splitCommaAux r [] else splitCommaAux r (c :: acc)

/-- Parse one builtin-call argument: a double-quoted string literal becomes
a literal, anything else stays raw text. -/
def parseArg (s : Chars) : Arg :=
  match trimBoth s with
  | [] => Arg.raw []
  | c :: r =>
    if c = '"' then
      match r.reverse with
      | [] => Arg.raw (c :: r)
      | c2 :: rr => if c2 = '"' then Arg.strLit rr.reverse else Arg.raw (c :: r)
    else Arg.raw (c :: r)

/-- Parse the argument list of a builtin call. -/
def parseArgList (s : Chars) : List Arg :=
  if trimBoth s = [] then [] else (splitCommaAux s []).map parseArg

/-- Modelled from the spec: the expression grammar of the missing
PreProcessor (src/lib/parser): an interpolation body is either a context
variable name or a builtin call with parenthesised arguments; anything
else is a MalformedExpression. -/
def parseExpr (body : Chars) : Except RenderErr Expr :=
  let t := trimBoth body
  let p := takeIdent t
  if p.1 = [] then .error .malformedExpression
  else
    match p.2 with
    | [] => .ok (Expr.var p.1)
    | c :: r =>
      if c = '(' then
        match r.reverse with
        | [] => .error .malformedExpression
        | c2 :: rr => if c2 = ')' then .ok (Expr.call p.1 (parseArgList rr.reverse)) else .error .malformedExpression
      else .error .malformedExpression

/-- Collect the body of an interpolation expression up to the closing
marker; fails when the marker is never closed. -/
def takeBody : Chars → Option (Chars × Chars)
  | [] => none
  | [_] => none
  | c :: c2 :: r =>
    if c = '}' ∧ c2 = '}' then some ([], r)
    else (takeBody (c2 :: r)).map (fun p => (c :: p.1, p.2))

/-- Merge a character into the front of a segment list, extending a leading
literal segment when possible. -/
def consLit (c : Char) : List Seg → List Seg
  | Seg.lit s :: rest => Seg.lit (c :: s) :: rest
  | segs => Seg.lit [c] :: segs

/-- Fuel-indexed template scanner: splits a template into literal text and
interpolation expressions. -/
def scanN : Nat → Chars → Except RenderErr (List Seg)
  | _, [] => .ok []
  | _, [c] => .ok [Seg.lit [c]]
  | 0, _ :: _ :: _ => .error .malformedExpression
  | n + 1, c :: c2 :: r =>
    if c = '{' ∧ c2 = '{' then
      match takeBody r with
      | none => .error .malformedExpression
      | some (body, rest) =>
        match parseExpr body with
        | .error e => .error e
        | .ok e =>
          match scanN n rest with
          | .error e2 => .error e2
          | .ok segs => .ok (Seg.expr e :: segs)
    else
      match scanN n (c2 :: r) with
      | .error e => .error e
      | .ok segs => .ok (consLit c segs)

/-- Modelled from the spec: scanning a template (part of the missing
PreProcessor in src/lib/parser) into segments. -/
def scanTemplate (s : Chars) : Except RenderErr (List Seg) := scanN s.length s

/-- Context lookup (first binding wins). -/
def lookupCtx : List (Chars × Chars) → Chars → Option Chars
  | [], _ => none
  | (k, v) :: rest, n => if k = n then some v else lookupCtx rest n

/-- Modelled from the spec: expression evaluation of the missing
PreProcessor (src/lib/parser).  Context variables resolve strictly
(undefined references are errors); env takes exactly one string-literal
argument and reads the process environment (modelled by the envf oracle,
empty string when unset is acceptable); cmd takes exactly one
string-literal argument and runs a shell command (modelled by the cmdf
oracle: none means non-zero exit or timeout), with trailing whitespace of
the captured output trimmed. -/
def evalExpr (ctx : List (Chars × Chars)) (envf : Chars → Chars)
    (cmdf : Chars → Option Chars) : Expr → Except RenderErr Chars
  | .var n =>
    match lookupCtx ctx n with
    | some v => .ok v
    | none => .error (.undefinedReference n)
  | .call f args =>
    if f = "env".data then
      match args with
      | [Arg.strLit s] => .ok (envf s)
      | _ => .error .badBuiltinArgument
    else if f = "cmd".data then
      match args with
      | [Arg.strLit s] =>
        match cmdf s with
        | some out => .ok (trimR out)
        | none => .error .builtinExecutionFailed
      | _ => .error .badBuiltinArgument
    else .error (.undefinedReference f)

/-- Evaluate one segment. -/
def evalSeg (ctx : List (Chars × Chars)) (envf : Chars → Chars)
    (cmdf : Chars → Option Chars) : Seg → Except RenderErr Chars
  | .lit s => .ok s
  | .expr e => evalExpr ctx envf cmdf e

/-- Assemble the rendered output from the segments; the first failing
segment fails the whole render, so no partially substituted text is ever
returned. -/
def renderSegs (ctx : List (Chars × Chars)) (envf : Chars → Chars)
    (cmdf : Chars → Option Chars) : List Seg → Except RenderErr Chars
  | [] => .ok []
  | s :: rest =>
    match evalSeg ctx envf cmdf s with
    | .error e => .error e
    | .ok x =>
      match renderSegs ctx envf cmdf rest with
      | .error e => .error e
      | .ok xs => .ok (x ++ xs)

/-- Modelled from the spec: PreProcessor.renderString of the missing
src/lib/parser.  Renders a template against a context and the env/cmd
oracles. -/
def renderString (tpl : Chars) (ctx : List (Chars × Chars)) (envf : Chars → Chars)
    (cmdf : Chars → Option Chars) : Except RenderErr Chars :=
  match scanTemplate tpl with
  | .error e => .error e
  | .ok segs => renderSegs ctx envf cmdf segs

/-- Whether a template text contains an interpolation opening marker. -/
def hasMarker : Chars → Bool
  | c :: c2 :: r => (c = '{' && c2 = '{') || hasMarker (c2 :: r)
  | _ => false

/-- Whether a segment list contains no builtin calls. -/
def noCalls : List Seg → Bool
  | [] => true
  | Seg.expr (Expr.call _ _) :: _ => false
  | _ :: rest => noCalls rest

/-- Whether an Except value is a success. -/
def isOkE : Except ε α → Bool
  | .ok _ => true
  | .error _ => false

/-- The parsed YAML data tree (StructuredValue of the spec): null, boolean,
number (kept as its literal text, the claims never compute with numbers),
string, sequence, or mapping. -/
inductive Yaml where
  | nil
  | bool (b : Bool)
  | num (lit : Chars)
  | str (s : Chars)
  | seq (items : List Yaml)
  | map (entries : List (Chars × Yaml))

/-- Errors of the structure parser. -/
inductive PErr where
  | notAnObject
  | badIndent
  | notAMapping
  | emptyDoc
  deriving DecidableEq

/-- Split a text into lines at newline characters. -/
def splitLinesAux : Chars → Chars → List Chars
  | [], acc => [acc.reverse]
  | c :: r, acc => if c = '\n' then acc.reverse :: splitLinesAux r [] else splitLinesAux r (c :: acc)

/-- Split a text into its lines. -/
def splitLines (s : Chars) : List Chars := splitLinesAux s []

/-- Count the leading spaces of a line and return the rest. -/
def countIndent : Chars → Nat × Chars
  | [] => (0, [])
  | c :: r =>
    if c = ' ' then
      let p := countIndent r
      (p.1 + 1, p.2)
    else (0, c :: r)

/-- Turn raw lines into (indent, content) pairs, dropping blank lines. -/
def mkLines (ls : List Chars) : List (Nat × Chars) :=
  ls.filterMap fun l =>
    let p := countIndent l
    if p.2 = [] then none else some p

/-- Split a line into a mapping key and the value text after the colon
(leading spaces of the value trimmed); none when the line has no
key-colon form. -/
def splitKey : Chars → Option (Chars × Chars)
  | [] => none
  | [c] => if c = ':' then some ([], []) else none
  | c :: c2 :: r =>
    if c = ':' ∧ c2 = ' ' then some ([], trimL r)
    else (splitKey (c2 :: r)).map (fun p => (c :: p.1, p.2))

/-- Take the longest digit prefix. -/
def takeDigits : Chars → Chars × Chars
  | [] => ([], [])
  | c :: r =>
    if c.isDigit then
      let p := takeDigits r
      (c :: p.1, p.2)
    else ([], c :: r)

/-- Whether a text is an unsigned YAML number literal (digits with an
optional single fraction part). -/
def isUNum (s : Chars) : Bool :=
  let p := takeDigits s
  !p.1.isEmpty &&
    (match p.2 with
     | [] => true
     | c :: r =>
       let q := takeDigits r
       c = '.' && !q.1.isEmpty && q.2.isEmpty)

/-- Whether a text is a YAML number literal. -/
def isNum : Chars → Bool
  | '-' :: r => isUNum r
  | s => isUNum s

/-- Drop a matching closing quote from the end of a quoted scalar body. -/
def stripClose (q : Char) (rest : Chars) : Chars :=
  match rest.reverse with
  | [] => rest
  | c :: rs => if c = q then rs.reverse else rest

/-- Modelled from the spec: plain-scalar resolution of the standard YAML
semantics the missing Converter (src/lib/parser) delegates to: quoted
scalars are strings, the null/boolean/number forms resolve to their typed
values, and everything else is a string. -/
def resolveScalar (t : Chars) : Yaml :=
  match t with
  | [] => Yaml.nil
  | c :: r =>
    if c == '"' || c == '\'' then Yaml.str (stripClose c r)
    else if strEq t "null".data || strEq t "~".data then Yaml.nil
    else if strEq t "true".data then Yaml.bool true
    else if strEq t "false".data then Yaml.bool false
    else if isNum t then Yaml.num t
    else Yaml.str t

/-- One open block of the indentation parser: its indent, the mapping
entries collected so far, and a pending key awaiting a nested value. -/
structure Frame where
  ind : Nat
  entries : List (Chars × Yaml)
  pending : Option Chars

/-- Close a frame into a mapping value; a still-pending key gets a null
value. -/
def closeFrame (f : Frame) : Yaml :=
  Yaml.map (f.entries ++ (match f.pending with | some k => [(k, Yaml.nil)] | none => []))

/-- Pop frames deeper than the given indent, attaching each closed block to
the pending key of its parent. -/
def closeCarry (i : Nat) (y : Yaml) : List Frame → Except PErr (List Frame)
  | [] => .error .badIndent
  | p :: rs =>
    match p.pending with
    | none => .error .badIndent
    | some k =>
      let p2 : Frame := { p with entries := p.entries ++ [(k, y)], pending := none }
      if p2.ind ≤ i then .ok (p2 :: rs) else closeCarry i (closeFrame p2) rs

/-- Close all frames deeper than the given indent. -/
def closeTo (i : Nat) (stack : List Frame) : Except PErr (List Frame) :=
  match stack with
  | [] => .error .badIndent
  | f :: rest => if f.ind ≤ i then .ok (f :: rest) else closeCarry i (closeFrame f) rest

/-- Add one mapping line to the top frame: a key with inline value adds an
entry, a bare key opens a pending nested block; a line without key-colon
form is a parse error. -/
def addLine (f : Frame) (rest : List Frame) (c : Chars) : Except PErr (List Frame) :=
  match splitKey c with
  | none => .error .notAMapping
  | some (k, v) =>
    if v = [] then .ok ({ f with pending := some k } :: rest)
    else .ok ({ f with entries := f.entries ++ [(k, resolveScalar v)], pending := none } :: rest)

/-- Process one (indent, content) line against the frame stack. -/
def stepLine (stack : List Frame) (l : Nat × Chars) : Except PErr (List Frame) :=
  match closeTo l.1 stack with
  | .error e => .error e
  | .ok [] => .error .badIndent
  | .ok (f :: rest) =>
    if f.ind = l.1 then
      match f.pending with
      | some k => addLine { f with entries := f.entries ++ [(k, Yaml.nil)], pending := none } rest l.2
      | none => addLine f rest l.2
    else
      match f.pending with
      | some _ => addLine { ind := l.1, entries := [], pending := none } (f :: rest) l.2
      | none => .error .badIndent

/-- Run the remaining lines through the frame stack. -/
def runLines (stack : List Frame) : List (Nat × Chars) → Except PErr (List Frame)
  | [] => .ok stack
  | l :: ls =>
    match stepLine stack l with
    | .error e => .error e
    | .ok st => runLines st ls

/-- Collapse the final stack into the document value. -/
def finishCarry (y : Yaml) : List Frame → Except PErr Yaml
  | [] => .ok y
  | p :: rs =>
    match p.pending with
    | none => .error .badIndent
    | some k => finishCarry (closeFrame { p with entries := p.entries ++ [(k, y)], pending := none }) rs

/-- Collapse the whole stack at end of input. -/
def finishStack : List Frame → Except PErr Yaml
  | [] => .error .emptyDoc
  | f :: rest => finishCarry (closeFrame f) rest

/-- Modelled from the spec: the StructureParser of the missing Converter
(src/lib/parser), covering the fragment of standard YAML the spec's
testable properties exercise: plain scalar documents and nested block
mappings with scalar leaves (block sequences are not modelled; no claim
exercises them).  A YAML syntax violation yields a parse error. -/
def parseYaml (s : Chars) : Except PErr Yaml :=
  match mkLines (splitLines s) with
  | [] => .ok Yaml.nil
  | (i, c) :: rest =>
    if rest = [] ∧ splitKey c = none then .ok (resolveScalar c)
    else
      match addLine { ind := i, entries := [], pending := none } [] c with
      | .error e => .error e
      | .ok st0 =>
        match runLines st0 rest with
        | .error e => .error e
        | .ok st => finishStack st

/-- Whether a value is an object in the lodash sense (mappings and
sequences are objects, scalars are not). -/
def isObjY : Yaml → Bool
  | .map _ => true
  | .seq _ => true
  | _ => false

/-- Modelled from the spec and from src/test/parser.test.ts:
Converter.convertString of the missing src/lib/parser parses YAML text and
then, as the test "should throw if the input is not YAML" observes, rejects
any document whose top level is not an object. -/
def convertString (s : Chars) : Except PErr Yaml :=
  match parseYaml s with
  | .error e => .error e
  | .ok y => if isObjY y then .ok y else .error .notAnObject

/-- Modelled from the spec: the fixed mu.yml JSON-Schema of the missing
src/lib/parser/mu.yml.schema.json, as characterised by the spec's testable
properties: the document must be a mapping whose top-level keys are all
known (version, mu), with version present and mu present as a mapping;
validation of any value returns a plain boolean verdict. -/
def validateMu : Yaml → Bool
  | .map es =>
    es.all (fun kv => strEq kv.1 "version".data || strEq kv.1 "mu".data) &&
    es.any (fun kv => strEq kv.1 "version".data) &&
    es.any (fun kv => strEq kv.1 "mu".data && isObjY kv.2)
  | _ => false

/-- The schema-load failure raised by the Validator constructor. -/
inductive InvalidMuSchemaError where
  | invalidMuSchema
  deriving DecidableEq

/-- JSON values, used to model the schema resource. -/
inductive Json where
  | null
  | bool (b : Bool)
  | num (lit : Chars)
  | str (s : Chars)
  | arr (items : List Json)
  | obj (fields : List (Chars × Json))

/-- Skip JSON whitespace. -/
def jskipWs : Chars → Chars
  | [] => []
  | c :: r => if c = ' ' ∨ c = '\n' ∨ c = '\t' ∨ c = '\r' then jskipWs r else c :: r

/-- Consume an expected literal text. -/
def dropLit : Chars → Chars → Option Chars
  | [], s => some s
  | _ :: _, [] => none
  | c :: r, d :: s => if c = d then dropLit r s else none

/-- Collect a JSON string body up to the closing quote (escapes are not
modelled). -/
def jstrAux : Chars → Option (Chars × Chars)
  | [] => none
  | c :: r => if c = '"' then some ([], r) else (jstrAux r).map (fun p => (c :: p.1, p.2))

/-- Consume a JSON number literal. -/
def jnum (s : Chars) : Option (Chars × Chars) :=
  let p : Chars × Chars := match s with | '-' :: r => let q := takeDigits r; ('-' :: q.1, q.2) | _ => takeDigits s
  if p.1 = [] ∨ p.1 = ['-'] then none
  else
    match p.2 with
    | '.' :: r2 =>
      let q := takeDigits r2
      if q.1 = [] then none else some (p.1 ++ '.' :: q.1, q.2)
    | _ => some p

/-- Parsing mode of the JSON reader. -/
inductive JMode where
  | val
  | arrItems
  | objItems

/-- Result of one JSON parsing step. -/
inductive JOut where
  | v (j : Json)
  | vs (l : List Json)
  | fs (l : List (Chars × Json))

/-- Fuel-indexed JSON reader used to model schema-resource loading. -/
def jparse : Nat → JMode → Chars → Option (JOut × Chars)
  | 0, _, _ => none
  | n + 1, .val, s =>
    match jskipWs s with
    | [] => none
    | c :: r =>
      if c = 'n' then (dropLit "ull".data r).map (fun rest => (.v Json.null, rest))
      else if c = 't' then (dropLit "rue".data r).map (fun rest => (.v (Json.bool true), rest))
      else if c = 'f' then (dropLit "alse".data r).map (fun rest => (.v (Json.bool false), rest))
      else if c = '"' then (jstrAux r).map (fun p => (.v (Json.str p.1), p.2))
      else if c = '[' then
        match jskipWs r with
        | ']' :: rest => some (.v (Json.arr []), rest)
        | r2 =>
          match jparse n .arrItems r2 with
          | some (.vs l, rest) => some (.v (Json.arr l), rest)
          | _ => none
      else if c = '{' then
        match jskipWs r with
        | '}' :: rest => some (.v (Json.obj []), rest)
        | r2 =>
          match jparse n .objItems r2 with
          | some (.fs l, rest) => some (.v (Json.obj l), rest)
          | _ => none
      else
        (jnum (c :: r)).map (fun p => (.v (Json.num p.1), p.2))
  | n + 1, .arrItems, s =>
    match jparse n .val s with
    | some (.v j, rest) =>
      (match jskipWs rest with
       | ',' :: r2 =>
         match jparse n .arrItems r2 with
         | some (.vs l, rest2) => some (.vs (j :: l), rest2)
         | _ => none
       | ']' :: r2 => some (.vs [j], r2)
       | _ => none)
    | _ => none
  | n + 1, .objItems, s =>
    match jskipWs s with
    | '"' :: r =>
      match jstrAux r with
      | none => none
      | some (k, rest) =>
        match jskipWs rest with
        | ':' :: r2 =>
          match jparse n .val r2 with
          | some (.v j, rest2) =>
            (match jskipWs rest2 with
             | ',' :: r3 =>
               match jparse n .objItems r3 with
               | some (.fs l, rest3) => some (.fs ((k, j) :: l), rest3)
               | _ => none
             | '}' :: r3 => some (.fs [(k, j)], r3)
             | _ => none)
          | _ => none
        | _ => none
    | _ => none

/-- Parse a whole JSON document. -/
def jsonParse (s : Chars) : Option Json :=
  match jparse (s.length + 1) .val s with
  | some (.v j, rest) => if jskipWs rest = [] then some j else none
  | _ => none

/-- The SchemaGate holding the schema loaded at construction time. -/
structure Validator where
  schema : Json

/-- Modelled from the spec: construction of the missing Validator
(src/lib/parser): the schema resource is read once, eagerly; a missing
resource or one that is not valid JSON raises InvalidMuSchemaError
synchronously at construction time. -/
def newValidator (resource : Option Chars) : Except InvalidMuSchemaError Validator :=
  match resource with
  | none => .error .invalidMuSchema
  | some txt =>
    match jsonParse txt with
    | none => .error .invalidMuSchema
    | some j => .ok ⟨j⟩

/-- Modelled from the spec: Validator.validateObject of the missing
src/lib/parser: checks a structured value against the fixed mu schema and
always returns a plain boolean verdict, never an error. -/
def validateObject (_v : Validator) (y : Yaml) : Bool := validateMu y

/-- Pipeline-level errors of Parser.parseString and Parser.parseFile. -/
inductive PipelineErr where
  | sourceUnavailable
  | renderFailed (e : RenderErr)
  | malformedDocument (e : PErr)
  | schemaViolation
  deriving DecidableEq

/-- Modelled from the spec: Parser.parseString of the missing
src/lib/parser: render, then parse, then validate, strictly in that order;
a false verdict becomes a typed schemaViolation error and the structured
value is returned only when it is schema-valid. -/
def parseString (src : Chars) (ctx : List (Chars × Chars)) (envf : Chars → Chars)
    (cmdf : Chars → Option Chars) : Except PipelineErr Yaml :=
  match renderString src ctx envf cmdf with
  | .error e => .error (.renderFailed e)
  | .ok text =>
    match convertString text with
    | .error e => .error (.malformedDocument e)
    | .ok y => if validateMu y then .ok y else .error .schemaViolation

/-- Modelled from the spec: Parser.parseFile of the missing src/lib/parser:
reads the file contents (the filesystem is modelled by the fs oracle; a
missing file fails with sourceUnavailable) and resolves them like
parseString. -/
def parseFile (fs : Chars → Option Chars) (path : Chars) (ctx : List (Chars × Chars))
    (envf : Chars → Chars) (cmdf : Chars → Option Chars) : Except PipelineErr Yaml :=
  match fs path with
  | none => .error .sourceUnavailable
  | some txt => parseString txt ctx envf cmdf

/- A configuration value tree as traversed by config.toStringEnvironmentMap
(src/unnamed/part_000): string, number and boolean scalars, functions (the
config object carries its methods), objects and arrays.  Mutual inductives
keep all recursions structural. -/
mutual
inductive CVal where
  | str (s : String)
  | num (n : Int)
  | bool (b : Bool)
  | fn
  | obj (fs : CFields)
  | arr (es : CElems)

inductive CFields where
  | nil
  | cons (k : String) (v : CVal) (rest : CFields)

inductive CElems where
  | nil
  | cons (v : CVal) (rest : CElems)
end

/-- Whether a node is a leaf for the traverse library: non-containers, and
empty containers (they have no children). -/
def isLeafC : CVal → Bool
  | .obj .nil => true
  | .arr .nil => true
  | .obj _ => false
  | .arr _ => false
  | _ => true

/-- Whether a node is a function (excluded from the environment map by the
isFunction check in the source). -/
def isFnC : CVal → Bool
  | .fn => true
  | _ => false

/-- JavaScript string coercion of a leaf value, matching the template
interpolation in the source. -/
def coerceC : CVal → String
  | .str s => s
  | .num n => toString n
  | .bool b => if b then "true" else "false"
  | .fn => "function"
  | .obj _ => "[object Object]"
  | .arr _ => ""

/-- Join path components with the double-underscore separator, as
path.join in the source. -/
def joinPath : List String → String
  | [] => ""
  | [p] => p
  | p :: rest => p ++ "__" ++ joinPath rest

/-- The flattened key of a leaf at a path. -/
def muKey (path : List String) : String := "mu_" ++ joinPath path

/-- JavaScript object assignment on an association list kept in insertion
order: an existing key is updated in place, a new key is appended. -/
def insertKV : List (String × String) → String → String → List (String × String)
  | [], k, v => [(k, v)]
  | (k2, v2) :: rest, k, v =>
    if k2 = k then (k2, v) :: rest else (k2, v2) :: insertKV rest k v

/- The traverse callback conditions of config.toStringEnvironmentMap
(src/unnamed/part_000 lines 72-78): a node contributes exactly when it is
a leaf, its own key is not the underscore key, and its value is not a
function; its key is mu_ followed by the path joined by double
underscores and its value is the string coercion of the leaf.  entriesV
lists the contributions of the preorder traversal. -/
mutual
def entriesV (path : List String) (key : Option String) (v : CVal) : List (String × String) :=
  if isLeafC v then
    if key = some "_" ∨ isFnC v then [] else [(muKey path, coerceC v)]
  else
    match v with
    | .obj fs => entriesF path fs
    | .arr es => entriesE path 0 es
    | _ => []

def entriesF (path : List String) (fs : CFields) : List (String × String) :=
  match fs with
  | .nil => []
  | .cons k v rest => entriesV (path ++ [k]) (some k) v ++ entriesF path rest

def entriesE (path : List String) (i : Nat) (es : CElems) : List (String × String) :=
  match es with
  | .nil => []
  | .cons v rest => entriesV (path ++ [toString i]) (some (toString i)) v ++ entriesE path (i + 1) rest
end

/-- Replay the accumulator-object assignments of the reduce over a list of
key-value contributions, in order. -/
def foldInsert (acc : List (String × String)) (l : List (String × String)) : List (String × String) :=
  l.foldl (fun a kv => insertKV a kv.1 kv.2) acc

/-- config.toStringEnvironmentMap (src/unnamed/part_000 lines 72-78): the
reduce threads a single accumulator object through the preorder traversal
and assigns each qualifying leaf into it, which is the replay of the
assignments over the preorder contribution list. -/
def toStringEnvironmentMap (cfg : CVal) : List (String × String) :=
  foldInsert [] (entriesV [] none cfg)

/-- All qualifying leaf entries of a configuration tree, one per leaf. -/
def leafEntries (cfg : CVal) : List (String × String) := entriesV [] none cfg

/-- The characters admitted unchanged by the identifier sanitiser of
config.getGithubMetaData: ASCII letters, digits and the hyphen. -/
def allowedIdChar (c : Char) : Bool := c.isAlpha || c.isDigit || c = '-'

/-- One step of the global character-class replacement in the source. -/
def sanitizeChar (c : Char) : Char := if allowedIdChar c then c else '-'

/-- The identifier built by config.getGithubMetaData (src/unnamed/part_000
lines 54-71): owner, repo and branch joined with hyphens, every character
outside the allowed class replaced by a hyphen. -/
def mkIdentifier (owner repo branch : Chars) : Chars :=
  (owner ++ '-' :: repo ++ '-' :: branch).map sanitizeChar

/-- The metadata record returned by config.getGithubMetaData. -/
structure GithubMeta where
  repo : Chars
  owner : Chars
  branch : Chars
  identifier : Chars

/-- config.getGithubMetaData (src/unnamed/part_000): the parsed remote (the
parse-github-url result is modelled as an optional owner/name pair, the
empty string standing for a falsy field) is checked by the three
assertions, then the sanitised identifier is built. -/
def getGithubMetaData (meta : Option (Chars × Chars)) (branch : Chars) : Option GithubMeta :=
  match meta with
  | none => none
  | some (owner, name) =>
    if name = [] then none
    else if owner = [] then none
    else some ⟨name, owner, branch, mkIdentifier owner name branch⟩

/-- Constructor properties of the Container construct
(src/lib/constructs/container.ts): optional fields are absent when the
caller did not pass them; lodash defaults fills them. -/
structure ContainerProps where
  buildArgs : List (String × String) := []
  file : Option String := none
  context : Option String := none
  uri : Option String := none

/-- The observable state of a constructed Container: resolved props, the
ECR repository name when one was created, the repository name used for
naming, and the needsBuilding flag. -/
structure ContainerState where
  file : String
  context : String
  uri : String
  buildArgs : List (String × String)
  repo : Option String
  repositoryName : String
  needsBuilding : Bool

/-- The Container constructor (src/lib/constructs/container.ts lines
35-70): defaults are applied, assertions are modelled as failure (none);
when a file is given and no uri, an ECR repository is created (its
CloudFormation uri token is modelled by the ecrUri oracle) named mu/ plus
the git identifier, and props.uri is overridden to the repository uri;
needsBuilding is the truthiness of the file prop. -/
def mkContainer (gitIdentifier : String) (ecrUri : String → String)
    (p : ContainerProps) : Option ContainerState :=
  let file := p.file.getD ""
  let context := p.context.getD "."
  let uri := p.uri.getD ""
  if context = "" then none
  else if file ≠ "" ∧ uri = "" then
    let rn := "mu/" ++ gitIdentifier
    let u := ecrUri rn
    if u = "" then none
    else if rn = "" then none
    else some ⟨file, context, u, p.buildArgs, some rn, rn, file != ""⟩
  else
    if uri = "" then none
    else some ⟨file, context, uri, p.buildArgs, none, uri, file != ""⟩

/-- The segments of a marker-free template: nothing for the empty text,
otherwise a single literal. -/
def litSegs : Chars → List Seg
  | [] => []
  | s => [Seg.lit s]

/-- Whether a text contains no newline. -/
def noNL (s : Chars) : Bool := s.all fun c => c != '\n'

/-- Whether a text contains no opening brace. -/
def noBrace (s : Chars) : Bool := s.all fun c => c != '{'

/-- Characters that render and parse as inert plain-scalar fragments:
ASCII letters and digits, hyphen, underscore, dot and slash. -/
def scalarSafeChar (c : Char) : Bool :=
  c.isAlphanum || c = '-' || c = '_' || c = '.' || c = '/'

/-- Whether a text consists only of scalar-safe characters. -/
def scalarSafe (s : Chars) : Bool := s.all scalarSafeChar

/-- Whether a builtin argument list is exactly one string literal (the only
shape env and cmd accept). -/
def isSingleStrLit : List Arg → Bool
  | [Arg.strLit _] => true
  | _ => false

/-- The source text of the basic-schema fixture exercised by the spec's
end-to-end property. -/
def basicSchemaSrc : Chars :=
  "version: 0.0.0".data ++ '\n' :: "mu:".data ++ '\n' :: "  fargate:".data ++ '\n' ::
  "    name: app-".data ++ "\x7b\x7b build_time \x7d\x7d-\x7b\x7b env(\x22USER\x22) \x7d\x7d".data

/-- The structured value the spec expects from resolving the basic-schema
fixture with build_time T and USER U. -/
def basicExpected (T U : Chars) : Yaml :=
  Yaml.map [("version".data, Yaml.str "0.0.0".data),
            ("mu".data, Yaml.map [("fargate".data,
               Yaml.map [("name".data, Yaml.str ("app-".data ++ (T ++ ("-".data ++ U))))])])]

/-- An environment oracle with every variable unset. -/
def envEmpty : Chars → Chars := fun _ => []

/-- A command oracle whose every command fails. -/
def cmdFail : Chars → Option Chars := fun _ => none

/-- A configuration tree with two distinct leaves whose flattened keys
collide. -/
def cfgCollide : CVal :=
  .obj (.cons "a" (.obj (.cons "b__c" (.str "1") .nil))
    (.cons "a__b" (.obj (.cons "c" (.str "2") .nil)) .nil))

/-- A configuration tree shaped like the default mu configuration: nested
option objects, the method members, and the rc underscore key. -/
def cfgDefault : CVal :=
  .obj (.cons "opts" (.obj
      (.cons "git" (.obj (.cons "remote" (.str "git@github.com:stelligent/mutato.git")
         (.cons "branch" (.str "master") (.cons "secret" (.str "") .nil))))
      (.cons "docker" (.obj (.cons "user" (.str "u") (.cons "pass" (.str "p") .nil)))
      (.cons "preprocessor" (.obj (.cons "timeout" (.str "10s") .nil)) .nil))))
    (.cons "getGithubMetaData" .fn (.cons "toStringEnvironmentMap" .fn
    (.cons "toBuildEnvironmentMap" .fn (.cons "_" (.arr .nil) .nil)))))

/-- A failing expression anywhere in the segment list fails the whole
render. -/
theorem renderSegs_mem_error (ctx : List (Chars × Chars)) (envf : Chars → Chars)
    (cmdf : Chars → Option Chars) (e : Expr) (err : RenderErr) :
    ∀ segs : List Seg, Seg.expr e ∈ segs → evalExpr ctx envf cmdf e = .error err →
      isOkE (renderSegs ctx envf cmdf segs) = false := by
  intro segs
  induction segs with
  | nil => intro h; exact absurd h (List.not_mem_nil _)
  | cons s rest ih =>
    intro hmem heval
    rcases List.mem_cons.mp hmem with hs | hs
    · subst hs
      simp [renderSegs, evalSeg, heval, isOkE]
    · have hrest := ih hs heval
      simp only [renderSegs]
      cases hes : evalSeg ctx envf cmdf s with
      | error e2 => simp [isOkE]
      | ok x =>
        cases hr : renderSegs ctx envf cmdf rest with
        | error e2 => simp [isOkE]
        | ok xs => rw [hr] at hrest; simp [isOkE] at hrest

/-- Rendering a template without builtin calls does not depend on the
environment or command oracles. -/
theorem renderSegs_oracle (ctx : List (Chars × Chars)) (envf1 envf2 : Chars → Chars)
    (cmdf1 cmdf2 : Chars → Option Chars) :
    ∀ segs : List Seg, noCalls segs = true →
      renderSegs ctx envf1 cmdf1 segs = renderSegs ctx envf2 cmdf2 segs := by
  intro segs
  induction segs with
  | nil => intro _; rfl
  | cons s rest ih =>
    intro hnc
    cases s with
    | lit l =>
      have : noCalls rest = true := by simpa [noCalls] using hnc
      simp [renderSegs, evalSeg, ih this]
    | expr e =>
      cases e with
      | var n =>
        have : noCalls rest = true := by simpa [noCalls] using hnc
        simp [renderSegs, evalSeg, evalExpr, ih this]
      | call f args => simp [noCalls] at hnc

/-- Scanning a marker-free text yields a single literal segment. -/
theorem scanN_noMarker :
    ∀ (s : Chars) (n : Nat), hasMarker s = false → s.length ≤ n + 1 →
      scanN n s = .ok (litSegs s) := by
  intro s
  induction s with
  | nil => intro n _ _; simp [scanN, litSegs]
  | cons c r ih =>
    intro n hm hl
    match r with
    | [] => simp [scanN, litSegs]
    | c2 :: r2 =>
      match n with
      | 0 => simp at hl
      | m + 1 =>
        simp only [hasMarker, Bool.or_eq_false_iff, Bool.and_eq_false_iff] at hm
        have hm2 : hasMarker (c2 :: r2) = false := hm.2
        have hcc : ¬(c = '{' ∧ c2 = '{') := by
          intro h
          rcases hm.1 with h1 | h1 <;> simp [h.1, h.2] at h1
        have hl2 : (c2 :: r2).length ≤ m + 1 := by simp at hl ⊢; omega
        have := ih m hm2 hl2
        simp only [scanN, if_neg hcc, this]
        simp [litSegs, consLit]

/-- Rendering a marker-free text returns it unchanged. -/
theorem render_noMarker (s : Chars) (ctx : List (Chars × Chars)) (envf : Chars → Chars)
    (cmdf : Chars → Option Chars) (h : hasMarker s = false) :
    renderString s ctx envf cmdf = .ok s := by
  unfold renderString scanTemplate
  rw [scanN_noMarker s s.length h (Nat.le_succ _)]
  cases s with
  | nil => simp [litSegs, renderSegs]
  | cons c r => simp [litSegs, renderSegs, evalSeg]

/-- Splitting a text that starts with a newline-free chunk accumulates the
chunk. -/
theorem splitLinesAux_chunk (xs : Chars) (h : noNL xs = true) :
    ∀ (ys acc : Chars), splitLinesAux (xs ++ ys) acc = splitLinesAux ys (xs.reverse ++ acc) := by
  induction xs with
  | nil => intro ys acc; simp
  | cons c r ih =>
    intro ys acc
    simp only [noNL, List.all_cons, Bool.and_eq_true, bne_iff_ne, ne_eq] at h
    have ihr : noNL r = true := by simp [noNL, h.2]
    simp only [List.cons_append, splitLinesAux, if_neg h.1, List.append_eq]
    rw [ih ihr]
    simp

/-- Splitting at an explicit newline after a newline-free line. -/
theorem splitLines_cons (xs ys : Chars) (h : noNL xs = true) :
    splitLines (xs ++ '\n' :: ys) = xs :: splitLines ys := by
  unfold splitLines
  rw [splitLinesAux_chunk xs h]
  simp [splitLinesAux]

/-- A newline-free text is a single line. -/
theorem splitLines_single (xs : Chars) (h : noNL xs = true) :
    splitLines xs = [xs] := by
  have h2 := splitLinesAux_chunk xs h [] []
  rw [List.append_nil] at h2
  unfold splitLines
  rw [h2]
  simp [splitLinesAux]

/-- Scalar-safe characters are not newlines. -/
theorem scalarSafe_noNL (s : Chars) (h : scalarSafe s = true) : noNL s = true := by
  simp only [scalarSafe, List.all_eq_true] at h
  simp only [noNL, List.all_eq_true]
  intro c hc
  have hs := h c hc
  by_contra hne
  simp only [bne_iff_ne, ne_eq, Decidable.not_not] at hne
  subst hne
  exact absurd hs (by decide)

/-- Scalar-safe characters are not opening braces. -/
theorem scalarSafe_noBrace (s : Chars) (h : scalarSafe s = true) : noBrace s = true := by
  simp only [scalarSafe, List.all_eq_true] at h
  simp only [noBrace, List.all_eq_true]
  intro c hc
  have hs := h c hc
  by_contra hne
  simp only [bne_iff_ne, ne_eq, Decidable.not_not] at hne
  subst hne
  exact absurd hs (by decide)

/-- A brace-free text contains no interpolation marker. -/
theorem noBrace_hasMarker (s : Chars) (h : noBrace s = true) : hasMarker s = false := by
  induction s with
  | nil => rfl
  | cons c r ih =>
    simp only [noBrace, List.all_cons, Bool.and_eq_true, bne_iff_ne, ne_eq] at h
    match r with
    | [] => rfl
    | c2 :: r2 =>
      have : noBrace (c2 :: r2) = true := by simp [noBrace, h.2]
      simp [hasMarker, ih this, h.1]

/-- Plain-scalar resolution never yields an object. -/
theorem resolveScalar_not_obj (t : Chars) : isObjY (resolveScalar t) = false := by
  cases t with
  | nil => rfl
  | cons c r =>
    simp only [resolveScalar]
    split <;> try rfl
    split <;> try rfl
    split <;> try rfl
    split <;> try rfl
    split <;> rfl

/-- Assigning a fresh key appends the binding. -/
theorem insertKV_fresh (k v : String) :
    ∀ acc : List (String × String), k ∉ acc.map Prod.fst →
      insertKV acc k v = acc ++ [(k, v)] := by
  intro acc
  induction acc with
  | nil => intro _; rfl
  | cons kv rest ih =>
    intro h
    simp only [List.map_cons, List.mem_cons, not_or] at h
    simp only [insertKV, if_neg (Ne.symm h.1)]
    rw [ih h.2]
    simp

/-- Replaying assignments over bindings with pairwise-distinct fresh keys
appends them all in order. -/
theorem foldInsert_fresh :
    ∀ (l acc : List (String × String)), (l.map Prod.fst).Nodup →
      (∀ k ∈ l.map Prod.fst, k ∉ acc.map Prod.fst) →
      foldInsert acc l = acc ++ l := by
  intro l
  induction l with
  | nil => intro acc _ _; simp [foldInsert]
  | cons kv rest ih =>
    intro acc hnd hfresh
    simp only [List.map_cons, List.nodup_cons] at hnd
    have hk : kv.1 ∉ acc.map Prod.fst := hfresh kv.1 (by simp)
    simp only [foldInsert, List.foldl_cons]
    rw [show insertKV acc kv.1 kv.2 = acc ++ [(kv.1, kv.2)] from insertKV_fresh kv.1 kv.2 acc hk]
    have hfresh2 : ∀ k ∈ rest.map Prod.fst, k ∉ (acc ++ [(kv.1, kv.2)]).map Prod.fst := by
      intro k hkr
      simp only [List.map_append, List.mem_append, List.map_cons, List.mem_cons, not_or]
      refine ⟨hfresh k (by simp [hkr]), ?_, by simp⟩
      intro hek
      rw [hek] at hkr
      exact hnd.1 hkr
    have := ih (acc ++ [(kv.1, kv.2)]) hnd.2 hfresh2
    simp only [foldInsert] at this
    rw [this]
    simp

/-- C2: if the pipeline resolve returns a structured value then that value
satisfies the schema, and a false validation verdict always becomes the
typed schemaViolation pipeline error instead of a returned value. -/
theorem c2_pipeline_schema_invariant (src : Chars) (ctx : List (Chars × Chars))
    (envf : Chars → Chars) (cmdf : Chars → Option Chars) (r : Chars) (y : Yaml) :
    (∀ w : Yaml, parseString src ctx envf cmdf = .ok w → validateMu w = true)
    ∧ (renderString src ctx envf cmdf = .ok r → convertString r = .ok y →
        validateMu y = false → parseString src ctx envf cmdf = .error .schemaViolation) := by
  constructor
  · intro w h
    cases hr : renderString src ctx envf cmdf with
    | error e =>
      simp only [parseString, hr] at h
      exact absurd h (by simp)
    | ok text =>
      simp only [parseString, hr] at h
      cases hc : convertString text with
      | error e =>
        simp only [hc] at h
        exact absurd h (by simp)
      | ok y2 =>
        simp only [hc] at h
        by_cases hv : validateMu y2 = true
        · rw [if_pos hv] at h
          cases h
          exact hv
        · rw [if_neg hv] at h
          exact absurd h (by simp)
  · intro hr hc hv
    simp only [parseString, hr, hc, hv]
    simp

/-- C3: schema validation is a total boolean verdict (it classifies every
value, including schema-violating ones, without raising), while
constructing the Validator against a missing or malformed schema resource
fails with InvalidMuSchemaError at construction time. -/
theorem c3_validator_total_loadfail (w : Validator) (y : Yaml) (txt : Chars) :
    (validateObject w y = true ∨ validateObject w y = false)
    ∧ validateObject w (Yaml.map [("invalid".data, Yaml.str "yes".data)]) = false
    ∧ newValidator none = .error .invalidMuSchema
    ∧ (jsonParse txt = none → newValidator (some txt) = .error .invalidMuSchema) := by
  refine ⟨?_, rfl, rfl, ?_⟩
  · cases validateObject w y with
    | true => exact Or.inl rfl
    | false => exact Or.inr rfl
  · intro h
    simp [newValidator, h]

/-- C4: an interpolation expression referencing a variable absent from the
context evaluates to the UndefinedReference error, and a template
containing such an expression never renders to an output (no empty-string
substitution happens). -/
theorem c4_undefined_reference_fails (ctx : List (Chars × Chars)) (envf : Chars → Chars)
    (cmdf : Chars → Option Chars) (tpl : Chars) (segs : List Seg) (name : Chars)
    (hscan : scanTemplate tpl = .ok segs)
    (hmem : Seg.expr (Expr.var name) ∈ segs)
    (habs : lookupCtx ctx name = none)
    (hne : name ≠ "env".data) (hnc : name ≠ "cmd".data) :
    evalExpr ctx envf cmdf (Expr.var name) = .error (.undefinedReference name)
    ∧ isOkE (renderString tpl ctx envf cmdf) = false := by
  have hev : evalExpr ctx envf cmdf (Expr.var name) = .error (.undefinedReference name) := by
    simp [evalExpr, habs]
  refine ⟨hev, ?_⟩
  unfold renderString
  rw [hscan]
  exact renderSegs_mem_error ctx envf cmdf _ _ segs hmem hev

/-- C5: env and cmd reject any argument list that is not a single string
literal with BadBuiltinArgument, a failing shell command fails cmd with
BuiltinExecutionFailed, and any failing expression in a template fails the
whole render, so no partially substituted text is ever returned. -/
theorem c5_builtin_failures (ctx : List (Chars × Chars)) (envf : Chars → Chars)
    (cmdf : Chars → Option Chars) (tpl : Chars) (segs : List Seg) (args : List Arg)
    (s : Chars) (e2 : Expr) (err : RenderErr) :
    (isSingleStrLit args = false →
      evalExpr ctx envf cmdf (Expr.call "env".data args) = .error .badBuiltinArgument)
    ∧ (isSingleStrLit args = false →
      evalExpr ctx envf cmdf (Expr.call "cmd".data args) = .error .badBuiltinArgument)
    ∧ (cmdf s = none →
      evalExpr ctx envf cmdf (Expr.call "cmd".data [Arg.strLit s]) = .error .builtinExecutionFailed)
    ∧ (scanTemplate tpl = .ok segs → Seg.expr e2 ∈ segs →
      evalExpr ctx envf cmdf e2 = .error err → isOkE (renderString tpl ctx envf cmdf) = false) := by
  refine ⟨?_, ?_, ?_, ?_⟩
  · intro h
    match args with
    | [] => rfl
    | [Arg.strLit x] => simp [isSingleStrLit] at h
    | [Arg.raw x] => rfl
    | a :: b :: rest => cases a <;> rfl
  · intro h
    match args with
    | [] => rfl
    | [Arg.strLit x] => simp [isSingleStrLit] at h
    | [Arg.raw x] => rfl
    | a :: b :: rest => cases a <;> rfl
  · intro h
    simp [evalExpr, h]
  · intro hscan hmem hev
    unfold renderString
    rw [hscan]
    exact renderSegs_mem_error ctx envf cmdf _ _ segs hmem hev

/-- C6 counterexample: the bare word string is a plain YAML scalar, the
YAML layer parses it as a string scalar, yet Converter.convertString
rejects it (the claim says it must succeed), exactly as the test "should
throw if the input is not YAML" demands. -/
theorem c6_counterexample :
    parseYaml "string".data = .ok (Yaml.str "string".data)
    ∧ convertString "string".data = .error .notAnObject :=
  ⟨rfl, rfl⟩

/-- C6 amended: a single-line plain-scalar document is parsed by the YAML
layer into the corresponding scalar value, which is never an object, so
Converter.convertString rejects it with a notAnObject error; syntactic
YAML errors remain the other failure source. -/
theorem c6_scalar_rejected (s : Chars) (i : Nat) (c : Chars)
    (hl : mkLines (splitLines s) = [(i, c)])
    (hk : splitKey c = none) :
    parseYaml s = .ok (resolveScalar c)
    ∧ isObjY (resolveScalar c) = false
    ∧ convertString s = .error .notAnObject := by
  have hp : parseYaml s = .ok (resolveScalar c) := by
    unfold parseYaml
    rw [hl]
    simp [hk]
  refine ⟨hp, resolveScalar_not_obj c, ?_⟩
  unfold convertString
  rw [hp]
  simp [resolveScalar_not_obj]

/-- C7 counterexample: with a context value that itself contains an
interpolation marker, rendering is not idempotent even though the context
covers every variable the template references and the template contains no
builtin calls: the first render yields the marker text and the second
render expands it further. -/
theorem c7_counterexample :
    renderString "\x7b\x7b a \x7d\x7d".data
        [("a".data, "\x7b\x7b b \x7d\x7d".data), ("b".data, "X".data)] envEmpty cmdFail
      = .ok "\x7b\x7b b \x7d\x7d".data
    ∧ renderString "\x7b\x7b b \x7d\x7d".data
        [("a".data, "\x7b\x7b b \x7d\x7d".data), ("b".data, "X".data)] envEmpty cmdFail
      = .ok "X".data
    ∧ "X".data ≠ "\x7b\x7b b \x7d\x7d".data
    ∧ scanTemplate "\x7b\x7b a \x7d\x7d".data = .ok [Seg.expr (Expr.var "a".data)]
    ∧ noCalls [Seg.expr (Expr.var "a".data)] = true
    ∧ lookupCtx [("a".data, "\x7b\x7b b \x7d\x7d".data), ("b".data, "X".data)] "a".data
      = some "\x7b\x7b b \x7d\x7d".data :=
  ⟨rfl, rfl, by decide, rfl, rfl, rfl⟩

/-- C7 amended: for a template whose scanned segments contain no builtin
calls, rendering does not depend on the environment or command oracles
(determinism across repeated calls), and re-rendering an output that
contains no interpolation marker returns it unchanged (idempotence holds
once the output is marker-free; the counterexample shows it can fail
otherwise). -/
theorem c7_render_deterministic_idempotent (tpl : Chars) (segs : List Seg)
    (ctx : List (Chars × Chars)) (envf1 envf2 : Chars → Chars)
    (cmdf1 cmdf2 : Chars → Option Chars) (out : Chars)
    (hscan : scanTemplate tpl = .ok segs)
    (hnc : noCalls segs = true) :
    renderString tpl ctx envf1 cmdf1 = renderString tpl ctx envf2 cmdf2
    ∧ (renderString tpl ctx envf1 cmdf1 = .ok out → hasMarker out = false →
        renderString out ctx envf1 cmdf1 = .ok out) := by
  constructor
  · unfold renderString
    rw [hscan]
    exact renderSegs_oracle ctx envf1 envf2 cmdf1 cmdf2 segs hnc
  · intro _ hm
    exact render_noMarker out ctx envf1 cmdf1 hm

/-- C8 counterexample: two distinct qualifying leaves whose flattened key
paths collide produce a single entry, so the map does not contain exactly
one entry per qualifying leaf. -/
theorem c8_counterexample :
    (leafEntries cfgCollide).length = 2
    ∧ (toStringEnvironmentMap cfgCollide).length = 1
    ∧ leafEntries cfgCollide = [("mu_a__b__c", "1"), ("mu_a__b__c", "2")]
    ∧ toStringEnvironmentMap cfgCollide = [("mu_a__b__c", "2")] :=
  ⟨rfl, rfl, rfl, rfl⟩

/-- C8 amended: when the flattened key names of the qualifying leaves are
pairwise distinct, toStringEnvironmentMap is exactly the flat list with
one entry per qualifying leaf, keyed by mu_ plus the path components
joined by double underscores and valued by the string coercion of the
leaf. -/
theorem c8_environment_map_flat (cfg : CVal)
    (h : ((leafEntries cfg).map Prod.fst).Nodup) :
    toStringEnvironmentMap cfg = leafEntries cfg := by
  have h2 : (((entriesV [] none cfg)).map Prod.fst).Nodup := h
  have h3 := foldInsert_fresh (entriesV [] none cfg) [] h2 (by simp)
  unfold toStringEnvironmentMap leafEntries
  simpa using h3

/-- The ECR repository name built by the Container constructor is never
empty. -/
theorem mu_repo_name_ne (git : String) : ("mu/" ++ git) ≠ "" := by
  intro h
  have h2 := congrArg String.data h
  simp [String.data_append] at h2

/-- C9: a Container constructed with a non-empty uri creates no ECR
repository and keeps the caller uri; one constructed with a non-empty file
and no uri creates the repository and overrides props.uri with its uri;
every successfully constructed Container has a non-empty uri, and
needsBuilding holds exactly when a non-empty file was given. -/
theorem c9_container_uri_repo (git : String) (ecr : String → String) :
    (∀ (p : ContainerProps) (u : String), p.uri = some u → u ≠ "" → p.context.getD "." ≠ "" →
      mkContainer git ecr p =
        some ⟨p.file.getD "", p.context.getD ".", u, p.buildArgs, none, u, p.file.getD "" != ""⟩)
    ∧ (∀ (p : ContainerProps) (f : String), p.file = some f → f ≠ "" → p.uri = none →
        p.context.getD "." ≠ "" → ecr ("mu/" ++ git) ≠ "" →
      mkContainer git ecr p =
        some ⟨f, p.context.getD ".", ecr ("mu/" ++ git), p.buildArgs,
              some ("mu/" ++ git), "mu/" ++ git, true⟩)
    ∧ (∀ (p : ContainerProps) (st : ContainerState), mkContainer git ecr p = some st →
        st.uri ≠ "" ∧ (st.needsBuilding = true ↔ p.file.getD "" ≠ "")) := by
  refine ⟨?_, ?_, ?_⟩
  · intro p u huri hne hctx
    unfold mkContainer
    rw [huri]
    simp only [Option.getD_some]
    rw [if_neg hctx]
    rw [if_neg (by intro hand; exact hne hand.2)]
    rw [if_neg hne]
  · intro p f hfile hne huri hctx hecr
    unfold mkContainer
    rw [hfile, huri]
    simp only [Option.getD_some, Option.getD_none]
    rw [if_neg hctx]
    rw [if_pos ⟨hne, trivial⟩]
    rw [if_neg hecr]
    rw [if_neg (mu_repo_name_ne git)]
    simp [bne_iff_ne, hne]
  · intro p st h
    unfold mkContainer at h
    by_cases hctx : p.context.getD "." = ""
    · rw [if_pos hctx] at h; exact absurd h (by simp)
    · rw [if_neg hctx] at h
      by_cases hbr : p.file.getD "" ≠ "" ∧ p.uri.getD "" = ""
      · rw [if_pos hbr] at h
        by_cases he : ecr ("mu/" ++ git) = ""
        · rw [if_pos he] at h; exact absurd h (by simp)
        · rw [if_neg he] at h
          rw [if_neg (mu_repo_name_ne git)] at h
          cases h
          exact ⟨he, by simp [bne_iff_ne, hbr.1]⟩
      · rw [if_neg hbr] at h
        by_cases hu : p.uri.getD "" = ""
        · rw [if_pos hu] at h; exact absurd h (by simp)
        · rw [if_neg hu] at h
          cases h
          exact ⟨hu, by simp [bne_iff_ne]⟩

/-- C10: every identifier returned by config.getGithubMetaData is the
owner-repo-branch join with each character outside ASCII letters, digits
and hyphen replaced by a hyphen, and hence contains only such
characters. -/
theorem c10_identifier_charset (meta : Option (Chars × Chars)) (branch : Chars) (g : GithubMeta)
    (h : getGithubMetaData meta branch = some g) :
    g.identifier = mkIdentifier g.owner g.repo g.branch
    ∧ ∀ c ∈ g.identifier, allowedIdChar c = true := by
  match meta with
  | none => exact absurd h (by simp [getGithubMetaData])
  | some (owner, name) =>
    simp only [getGithubMetaData] at h
    by_cases h1 : name = []
    · rw [if_pos h1] at h; exact absurd h (by simp)
    · rw [if_neg h1] at h
      by_cases h2 : owner = []
      · rw [if_pos h2] at h; exact absurd h (by simp)
      · rw [if_neg h2] at h
        cases h
        refine ⟨rfl, ?_⟩
        intro c hc
        rcases List.mem_map.mp hc with ⟨d, _, hd⟩
        rw [← hd]
        unfold sanitizeChar
        by_cases ha : allowedIdChar d = true
        · rw [if_pos ha]; exact ha
        · rw [if_neg ha]; decide

/-- Witness for C2: a document with an unknown top-level key renders and
parses but fails validation, and the pipeline turns the false verdict into
the schemaViolation error. -/
theorem c2_witness :
    parseString "invalid: yes".data [] envEmpty cmdFail = .error .schemaViolation :=
  (c2_pipeline_schema_invariant "invalid: yes".data [] envEmpty cmdFail
    "invalid: yes".data (Yaml.map [("invalid".data, Yaml.str "yes".data)])).2 rfl rfl rfl

/-- Witness for C3: a concrete validator classifies values without raising,
a missing schema resource and a malformed one both fail construction. -/
theorem c3_witness :
    (validateObject ⟨Json.obj []⟩ Yaml.nil = true ∨ validateObject ⟨Json.obj []⟩ Yaml.nil = false)
    ∧ validateObject ⟨Json.obj []⟩ (Yaml.map [("invalid".data, Yaml.str "yes".data)]) = false
    ∧ newValidator none = .error .invalidMuSchema
    ∧ newValidator (some "\x7b".data) = .error .invalidMuSchema := by
  have h := c3_validator_total_loadfail ⟨Json.obj []⟩ Yaml.nil "\x7b".data
  exact ⟨h.1, h.2.1, h.2.2.1, h.2.2.2 rfl⟩

/-- Witness for C4: the template referencing the undefined variable fails
to render. -/
theorem c4_witness :
    evalExpr [] envEmpty cmdFail (Expr.var "invalid".data)
      = .error (.undefinedReference "invalid".data)
    ∧ isOkE (renderString "time: \x7b\x7b invalid \x7d\x7d".data [] envEmpty cmdFail) = false :=
  c4_undefined_reference_fails [] envEmpty cmdFail "time: \x7b\x7b invalid \x7d\x7d".data
    [Seg.lit "time: ".data, Seg.expr (Expr.var "invalid".data)] "invalid".data
    rfl (by decide) rfl (by decide) (by decide)

/-- Witness for C5: env with no argument, cmd with no argument, and a
failing shell command all fail, and the env() template renders to no
output. -/
theorem c5_witness :
    evalExpr [] envEmpty cmdFail (Expr.call "env".data []) = .error .badBuiltinArgument
    ∧ evalExpr [] envEmpty cmdFail (Expr.call "cmd".data []) = .error .badBuiltinArgument
    ∧ evalExpr [] envEmpty cmdFail (Expr.call "cmd".data [Arg.strLit "exit 1".data])
      = .error .builtinExecutionFailed
    ∧ isOkE (renderString "\x7b\x7b env() \x7d\x7d".data [] envEmpty cmdFail) = false := by
  have h := c5_builtin_failures [] envEmpty cmdFail "\x7b\x7b env() \x7d\x7d".data
    [Seg.expr (Expr.call "env".data [])] [] "exit 1".data
    (Expr.call "env".data []) RenderErr.badBuiltinArgument
  exact ⟨h.1 rfl, h.2.1 rfl, h.2.2.1 rfl, h.2.2.2 rfl (by decide) (h.1 rfl)⟩

/-- Witness for C6: a bare scalar word YAML-parses to a string scalar and
is rejected by the Converter. -/
theorem c6_witness :
    parseYaml "hello".data = .ok (Yaml.str "hello".data)
    ∧ isObjY (Yaml.str "hello".data) = false
    ∧ convertString "hello".data = .error .notAnObject :=
  c6_scalar_rejected "hello".data 0 "hello".data rfl rfl

/-- Witness for C7: a builtin-free template renders identically under two
different oracle pairs, and its marker-free output re-renders to itself. -/
theorem c7_witness :
    renderString "x: \x7b\x7b a \x7d\x7d".data [("a".data, "1".data)]
        (fun _ => "p".data) (fun _ => some "q".data)
      = renderString "x: \x7b\x7b a \x7d\x7d".data [("a".data, "1".data)] envEmpty cmdFail
    ∧ renderString "x: 1".data [("a".data, "1".data)]
        (fun _ => "p".data) (fun _ => some "q".data) = .ok "x: 1".data := by
  have h := c7_render_deterministic_idempotent "x: \x7b\x7b a \x7d\x7d".data
    [Seg.lit "x: ".data, Seg.expr (Expr.var "a".data)] [("a".data, "1".data)]
    (fun _ => "p".data) envEmpty (fun _ => some "q".data) cmdFail "x: 1".data rfl rfl
  exact ⟨h.1, h.2 rfl rfl⟩

/-- Witness for C8: the default-shaped configuration has pairwise-distinct
flattened keys, so its environment map is exactly the per-leaf list. -/
theorem c8_witness :
    ((leafEntries cfgDefault).map Prod.fst).Nodup
    ∧ toStringEnvironmentMap cfgDefault = leafEntries cfgDefault :=
  ⟨by decide, c8_environment_map_flat cfgDefault (by decide)⟩

/-- Witness for C9: with a uri the repository is skipped and the uri kept;
with only a file the repository is created and the uri overridden. -/
theorem c9_witness :
    mkContainer "g" (fun _ => "E") {file := some "Dockerfile", uri := some "stelligent/mu"}
      = some ⟨"Dockerfile", ".", "stelligent/mu", [], none, "stelligent/mu", true⟩
    ∧ mkContainer "g" (fun _ => "E") {file := some "Dockerfile"}
      = some ⟨"Dockerfile", ".", "E", [], some "mu/g", "mu/g", true⟩ := by
  have h := c9_container_uri_repo "g" (fun _ => "E")
  have h1 := h.1 {file := some "Dockerfile", uri := some "stelligent/mu"} "stelligent/mu"
    rfl (by decide) (by decide)
  have h2 := h.2.1 {file := some "Dockerfile"} "Dockerfile" rfl (by decide) rfl (by decide) (by decide)
  exact ⟨h1, h2⟩

/-- Witness for C10: a branch containing slash and underscore yields a
sanitised identifier over the allowed character class. -/
theorem c10_witness :
    "stelligent-mutato-feat-x-1".data
      = mkIdentifier "stelligent".data "mutato".data "feat/x_1".data
    ∧ ∀ c ∈ "stelligent-mutato-feat-x-1".data, allowedIdChar c = true :=
  c10_identifier_charset (some ("stelligent".data, "mutato".data)) "feat/x_1".data
    ⟨"mutato".data, "stelligent".data, "feat/x_1".data, "stelligent-mutato-feat-x-1".data⟩ rfl

/-- Newline-freeness is preserved by concatenation. -/
theorem noNL_append (a b : Chars) (ha : noNL a = true) (hb : noNL b = true) :
    noNL (a ++ b) = true := by
  simp only [noNL] at ha hb ⊢
  simp [List.all_append, ha, hb]

/-- Newline-freeness is preserved by a non-newline head. -/
theorem noNL_cons (c : Char) (s : Chars) (hc : (c != '\n') = true) (hs : noNL s = true) :
    noNL (c :: s) = true := by
  simp only [noNL] at hs ⊢
  simp [List.all_cons, hc, hs]

/-- Brace-freeness is preserved by concatenation. -/
theorem noBrace_append (a b : Chars) (ha : noBrace a = true) (hb : noBrace b = true) :
    noBrace (a ++ b) = true := by
  simp only [noBrace] at ha hb ⊢
  simp [List.all_append, ha, hb]

/-- Brace-freeness is preserved by a non-brace head. -/
theorem noBrace_cons (c : Char) (s : Chars) (hc : (c != '{') = true) (hs : noBrace s = true) :
    noBrace (c :: s) = true := by
  simp only [noBrace] at hs ⊢
  simp [List.all_cons, hc, hs]

/-- C1 counterexample: a context value for build_time containing a newline
and a key-colon form makes the resolved document grow an unknown top-level
key, so resolution fails with schemaViolation instead of returning the
claimed structured value. -/
theorem c1_counterexample :
    lookupCtx [("build_time".data, "0\nevil: 1".data)] "build_time".data
      = some "0\nevil: 1".data
    ∧ parseString basicSchemaSrc [("build_time".data, "0\nevil: 1".data)]
        (fun _ => "u".data) cmdFail = .error .schemaViolation :=
  ⟨rfl, rfl⟩

/-- C1 amended: for any context binding build_time to a scalar-safe value T
and with the USER environment variable a scalar-safe U, resolving the
basic-schema source succeeds with exactly the expected structured value
(whose name is app-T-U), the rendered text contains no leftover
interpolation markers, the value passes schema validation, and parseFile
behaves identically on a file with the same contents.  (Scalar-safety is
needed: the counterexample shows an arbitrary T can change the document
structure.) -/
theorem c1_parse_basic_schema (T U : Chars) (ctx : List (Chars × Chars))
    (envf : Chars → Chars) (cmdf : Chars → Option Chars)
    (hT : scalarSafe T = true) (hU : scalarSafe U = true)
    (hctx : lookupCtx ctx "build_time".data = some T)
    (henv : envf "USER".data = U) :
    parseString basicSchemaSrc ctx envf cmdf = .ok (basicExpected T U)
    ∧ validateMu (basicExpected T U) = true
    ∧ (∃ rtext, renderString basicSchemaSrc ctx envf cmdf = .ok rtext ∧ hasMarker rtext = false)
    ∧ ∀ (fsys : Chars → Option Chars) (path : Chars), fsys path = some basicSchemaSrc →
        parseFile fsys path ctx envf cmdf = .ok (basicExpected T U) := by
  have hscan : scanTemplate basicSchemaSrc =
      .ok [Seg.lit "version: 0.0.0\nmu:\n  fargate:\n    name: app-".data,
           Seg.expr (Expr.var "build_time".data),
           Seg.lit ['-'],
           Seg.expr (Expr.call "env".data [Arg.strLit "USER".data])] := rfl
  have e1 : evalExpr ctx envf cmdf (Expr.var "build_time".data) = .ok T := by
    simp [evalExpr, hctx]
  have e2 : evalExpr ctx envf cmdf (Expr.call "env".data [Arg.strLit "USER".data]) = .ok U := by
    simp [evalExpr, henv]
  have hrender : renderString basicSchemaSrc ctx envf cmdf =
      .ok ("version: 0.0.0".data ++ ('\n' :: ("mu:".data ++ ('\n' :: ("  fargate:".data ++
           ('\n' :: ("    name: app-".data ++ (T ++ '-' :: U)))))))) := by
    unfold renderString
    rw [hscan]
    simp only [renderSegs, evalSeg, e1, e2]
    simp only [List.append_nil, List.singleton_append]
    rfl
  have hTn := scalarSafe_noNL T hT
  have hUn := scalarSafe_noNL U hU
  have hL4 : noNL ("    name: app-".data ++ (T ++ '-' :: U)) = true :=
    noNL_append _ _ (by decide) (noNL_append _ _ hTn (noNL_cons _ _ (by decide) hUn))
  have hsplit : splitLines ("version: 0.0.0".data ++ ('\n' :: ("mu:".data ++ ('\n' ::
        ("  fargate:".data ++ ('\n' :: ("    name: app-".data ++ (T ++ '-' :: U)))))))) =
      ["version: 0.0.0".data, "mu:".data, "  fargate:".data,
       "    name: app-".data ++ (T ++ '-' :: U)] := by
    rw [splitLines_cons _ _ (by decide), splitLines_cons _ _ (by decide),
        splitLines_cons _ _ (by decide), splitLines_single _ hL4]
  have hml : mkLines (splitLines ("version: 0.0.0".data ++ ('\n' :: ("mu:".data ++ ('\n' ::
        ("  fargate:".data ++ ('\n' :: ("    name: app-".data ++ (T ++ '-' :: U))))))))) =
      [(0, "version: 0.0.0".data), (0, "mu:".data), (2, "fargate:".data),
       (4, "name: app-".data ++ (T ++ '-' :: U))] := by
    rw [hsplit]
    rfl
  have hconv : convertString ("version: 0.0.0".data ++ ('\n' :: ("mu:".data ++ ('\n' ::
        ("  fargate:".data ++ ('\n' :: ("    name: app-".data ++ (T ++ '-' :: U)))))))) =
      .ok (basicExpected T U) := by
    unfold convertString parseYaml
    rw [hml]
    rfl
  have hval : validateMu (basicExpected T U) = true := rfl
  have hmain : parseString basicSchemaSrc ctx envf cmdf = .ok (basicExpected T U) := by
    simp only [parseString, hrender, hconv, hval]
    simp
  refine ⟨hmain, hval, ?_, ?_⟩
  · refine ⟨_, hrender, ?_⟩
    apply noBrace_hasMarker
    exact noBrace_append _ _ (by decide) (noBrace_cons _ _ (by decide)
      (noBrace_append _ _ (by decide) (noBrace_cons _ _ (by decide)
        (noBrace_append _ _ (by decide) (noBrace_cons _ _ (by decide)
          (noBrace_append _ _ (by decide)
            (noBrace_append _ _ (scalarSafe_noBrace T hT)
              (noBrace_cons _ _ (by decide) (scalarSafe_noBrace U hU)))))))))
  · intro fsys path hp
    simp only [parseFile, hp]
    exact hmain

/-- Witness for C1: with build_time 42 and USER bob the basic schema
resolves to the expected tree with name app-42-bob. -/
theorem c1_witness :
    parseString basicSchemaSrc [("build_time".data, "42".data)] (fun _ => "bob".data) cmdFail
      = .ok (basicExpected "42".data "bob".data) :=
  (c1_parse_basic_schema "42".data "bob".data [("build_time".data, "42".data)]
    (fun _ => "bob".data) cmdFail (by decide) (by decide) rfl rfl).1
